import Mathlib

/-!
# Verification of the smart-restaurant-app back office (`src/app.py`)

A shallow embedding of the Flask application in `src/app.py`: the relational
state (Users, Categories, MenuItems, Orders, OrderDetails) is a record of
lists of rows, each route handler becomes a Lean function on that state, and
the SQL statements are translated clause by clause (WHERE = filter/find,
JOIN = flatMap over matching rows, GROUP BY = dedup of keys plus per-key sums,
ORDER BY = mergeSort, TOP 5 = take 5).  Monetary amounts (`Price`,
`TotalAmount`, `UnitPrice`) are modelled as exact rationals, matching the SQL
decimal types.  Fallible steps (missing form key = Python `KeyError`, numeric
conversion failure = database conversion error) return `Option`.
-/

namespace RestaurantApp

/-! ## Password hashing

Modelled from the library contract used by `src/app.py` (werkzeug's
`generate_password_hash` / `check_password_hash`): `generate_password_hash`
draws a fresh salt (here an explicit argument, standing for the randomness)
and stores the salt next to a digest that is a deterministic function of salt
and password; `check_password_hash` recomputes the digest from the stored salt
and the candidate password and compares.  The digest function below is a
placeholder for the one-way function; the proofs only use that it is a
deterministic function of (salt, password). -/

structure PasswordHash where
  salt : String
  digest : String
deriving Repr, DecidableEq

/-- The deterministic digest underlying the salted hash (stands in for
werkzeug's PBKDF2; only its determinism is used in proofs). -/
def hashDigest (salt password : String) : String :=
  salt ++ "$" ++ password

/-- `werkzeug.security.generate_password_hash`, with the library's internal
random salt made an explicit argument. -/
def generate_password_hash (salt password : String) : PasswordHash :=
  ⟨salt, hashDigest salt password⟩

/-- `werkzeug.security.check_password_hash`: recompute the digest with the
stored salt and compare. -/
def check_password_hash (h : PasswordHash) (password : String) : Bool :=
  hashDigest h.salt password == h.digest

/-! ## Relational state -/

/-- A row of the `Users` table. -/
structure UserRow where
  userID : Nat
  username : String
  email : String
  passwordHash : PasswordHash
  role : String
deriving Repr, DecidableEq

/-- A row of the `Categories` table. -/
structure CategoryRow where
  categoryID : Nat
  name : String
deriving Repr, DecidableEq

/-- A row of the `MenuItems` table.  `active` is the stored bit: the handlers
write the integers 1 and 0. -/
structure MenuItemRow where
  menuItemID : Nat
  name : String
  categoryID : Nat
  price : ℚ
  active : Nat
deriving Repr, DecidableEq

/-- An `OrderTime` value: `day` is the calendar date (what
`CAST(OrderTime AS DATE)` extracts, encoded as a day number) and `tod` the
time of day within it. -/
structure OrderTime where
  day : Nat
  tod : Nat
deriving Repr, DecidableEq

/-- A row of the `Orders` table. -/
structure OrderRow where
  orderID : Nat
  orderTime : OrderTime
  totalAmount : ℚ
deriving Repr, DecidableEq

/-- A row of the `OrderDetails` table. -/
structure OrderDetailRow where
  orderID : Nat
  menuItemID : Nat
  quantity : Nat
  unitPrice : ℚ
deriving Repr, DecidableEq

/-- The database state.  `nextUserID` / `nextMenuItemID` model the identity
columns that assign ids on INSERT. -/
structure DB where
  users : List UserRow
  categories : List CategoryRow
  menuItems : List MenuItemRow
  orders : List OrderRow
  orderDetails : List OrderDetailRow
  nextUserID : Nat
  nextMenuItemID : Nat
deriving Repr, DecidableEq

/-! ## HTTP responses

Each handler's outcome is reduced to what the claims observe: the session
established by the request (none when the handler does not call
`login_user`), the flash messages emitted (message, category), and whether the
handler redirects to a route or renders a template. -/

/-- The handler's final action: redirect to a named route or render a
template. -/
inductive Action where
  | redirect (endpoint : String)
  | render (template : String)
deriving Repr, DecidableEq

/-- What a handler returns to the browser. -/
structure Response where
  session : Option Nat
  flashes : List (String × String)
  action : Action
deriving Repr, DecidableEq

/-! ## Form data

`request.form` is a map from field names to string values; the handlers use
both key membership (`"active" in request.form`) and value lookup
(`request.form["name"]`, `request.form.get("active")`). -/

/-- Submitted form data: an association list of field name / value pairs. -/
def Form := List (String × String)

/-- `request.form[k]` / `request.form.get(k)`: the first value for key `k`,
if any. -/
def formGet (f : Form) (k : String) : Option String :=
  (f.find? (fun p => p.1 == k)).map (fun p => p.2)

/-- `k in request.form`: key membership. -/
def formHasKey (f : Form) (k : String) : Bool :=
  (f.find? (fun p => p.1 == k)).isSome

/-- Python truthiness of `request.form.get(k)`: `None` and the empty string
are falsy, every other string is truthy. -/
def formTruthy (v : Option String) : Bool :=
  match v with
  | none => false
  | some s => s != ""

/-! ## Numeric conversion of form strings

The handlers pass form strings straight into parameterized SQL; the database
converts them to INT / DECIMAL and errors on malformed input.  `parseNat?` is
the integer conversion; `parseDec?` the decimal one. -/

/-- The numeric value of a decimal digit character, `none` on a non-digit. -/
def digitVal? (c : Char) : Option Nat :=
  if c.isDigit then some (c.toNat - 48) else none

/-- Accumulate a decimal numeral left to right; `none` on a non-digit. -/
def digitsGo (acc : Nat) : List Char → Option Nat
  | [] => some acc
  | c :: cs =>
      match digitVal? c with
      | some d => digitsGo (acc * 10 + d) cs
      | none => none

/-- The value of a non-empty all-digit character sequence. -/
def digitsVal? (cs : List Char) : Option Nat :=
  if cs.isEmpty then none else digitsGo 0 cs

/-- Split a character sequence at every `'.'`. -/
def splitOnDot : List Char → List (List Char)
  | [] => [[]]
  | c :: cs =>
      let r := splitOnDot cs
      if c == '.' then [] :: r
      else
        match r with
        | [] => [[c]]
        | g :: gs => (c :: g) :: gs

/-- Database conversion of a form string to INT: a non-empty digit string. -/
def parseNat? (s : String) : Option Nat :=
  digitsVal? s.toList

/-- Database conversion of a form string to DECIMAL: an integer part,
optionally followed by `.` and a fractional part. -/
def parseDec? (s : String) : Option ℚ :=
  match splitOnDot s.toList with
  | [a] => (digitsVal? a).map (fun n => (n : ℚ))
  | [a, b] =>
      match digitsVal? a, digitsVal? b with
      | some n, some frac => some ((n : ℚ) + (frac : ℚ) / ((10 : ℚ) ^ b.length))
      | _, _ => none
  | _ => none

/-! ## Authentication handlers -/

/-- The in-memory `User` object built from a `Users` row (the `UserMixin`
subclass in `src/app.py`). -/
structure User where
  id : Nat
  username : String
  email : String
  role : String
deriving Repr, DecidableEq

/-- `load_user` (the `@login_manager.user_loader`): re-fetch the `Users` row
by id; `fetchone` on `WHERE UserID = ?` is the first matching row.  Returns
`none` when the id no longer resolves. -/
def load_user (db : DB) (user_id : Nat) : Option User :=
  (db.users.find? (fun u => u.userID == user_id)).map
    (fun r => ⟨r.userID, r.username, r.email, r.role⟩)

/-- The POST branch of `register`: hash the password (salt made explicit),
insert a `Users` row with role `"Customer"` and the next identity id, flash
success, redirect to `login`. -/
def register (db : DB) (salt username email password : String) : DB × Response :=
  let ph := generate_password_hash salt password
  let row : UserRow := ⟨db.nextUserID, username, email, ph, "Customer"⟩
  ({ db with users := db.users ++ [row], nextUserID := db.nextUserID + 1 },
   { session := none
     flashes := [("Registration successful! Please log in.", "success")]
     action := .redirect "login" })

/-- The POST branch of `login`: `fetchone` on `WHERE Email = ?` (first row
with that email), then the hash check; on success `login_user` binds the
session to the row's id and the handler redirects to `index`, otherwise it
flashes the generic error and re-renders `login.html`. -/
def login (db : DB) (email password : String) : Response :=
  match db.users.find? (fun u => u.email == email) with
  | some row =>
      if check_password_hash row.passwordHash password then
        { session := some row.userID
          flashes := [("Logged in successfully!", "success")]
          action := .redirect "index" }
      else
        { session := none
          flashes := [("Invalid email or password", "danger")]
          action := .render "login.html" }
  | none =>
      { session := none
        flashes := [("Invalid email or password", "danger")]
        action := .render "login.html" }

/-! ## Menu CRUD handlers -/

/-- A row of `menu_list`'s result set: `m.MenuItemID, m.Name,
c.Name AS CategoryName, m.Price, m.Active`. -/
structure MenuListRow where
  menuItemID : Nat
  name : String
  categoryName : String
  price : ℚ
  active : Nat
deriving Repr, DecidableEq

/-- The result row built from a `MenuItems` row and a joined `Categories`
row. -/
def mkMenuListRow (m : MenuItemRow) (categoryName : String) : MenuListRow :=
  ⟨m.menuItemID, m.name, categoryName, m.price, m.active⟩

/-- The unsorted inner join `FROM MenuItems m JOIN Categories c ON
m.CategoryID = c.CategoryID`: every (item, category) pair with matching
category id. -/
def menuJoin (db : DB) : List MenuListRow :=
  db.menuItems.flatMap (fun m =>
    (db.categories.filter (fun c => c.categoryID == m.categoryID)).map
      (fun c => mkMenuListRow m c.name))

/-- `menu_list`: the join above with `ORDER BY m.Name`. -/
def menu_list (db : DB) : List MenuListRow :=
  (menuJoin db).mergeSort (fun a b => a.name ≤ b.name)

/-- The POST branch of `menu_create`: read `name`, `category_id`, `price`
from the form (a missing key is a Python `KeyError`, hence `none`), set
`active` to 1 exactly when the key `"active"` is present, insert the row (the
database converts the id and price strings, erroring on malformed input),
flash success and redirect to `menu_list`. -/
def menu_create (db : DB) (form : Form) : Option (DB × Response) :=
  match formGet form "name", formGet form "category_id", formGet form "price" with
  | some name, some catS, some priceS =>
      let active : Nat := if formHasKey form "active" then 1 else 0
      match parseNat? catS, parseDec? priceS with
      | some cid, some pr =>
          let row : MenuItemRow := ⟨db.nextMenuItemID, name, cid, pr, active⟩
          some ({ db with menuItems := db.menuItems ++ [row],
                          nextMenuItemID := db.nextMenuItemID + 1 },
                { session := none
                  flashes := [("Menu item created successfully!", "success")]
                  action := .redirect "menu_list" })
      | _, _ => none
  | _, _, _ => none

/-- The POST branch of `menu_edit`: read the form fields (`active` is 1
exactly when `request.form.get("active")` is truthy), then
`UPDATE MenuItems SET Name, CategoryID, Price, Active WHERE MenuItemID = ?`,
which rewrites every row whose id matches and leaves the rest untouched;
flash success and redirect to `menu_list`. -/
def menu_edit (db : DB) (id : Nat) (form : Form) : Option (DB × Response) :=
  match formGet form "name", formGet form "category_id", formGet form "price" with
  | some name, some catS, some priceS =>
      let active : Nat := if formTruthy (formGet form "active") then 1 else 0
      match parseNat? catS, parseDec? priceS with
      | some cid, some pr =>
          some ({ db with menuItems := db.menuItems.map (fun m =>
                    if m.menuItemID == id then
                      { m with name := name, categoryID := cid,
                               price := pr, active := active }
                    else m) },
                { session := none
                  flashes := [("Menu item updated successfully!", "success")]
                  action := .redirect "menu_list" })
      | _, _ => none
  | _, _, _ => none

/-- `menu_delete`: `DELETE FROM MenuItems WHERE MenuItemID = ?` with no
existence check, then flash and redirect to `menu_list`. -/
def menu_delete (db : DB) (id : Nat) : DB × Response :=
  ({ db with menuItems := db.menuItems.filter (fun m => !(m.menuItemID == id)) },
   { session := none
     flashes := [("Menu item deleted.", "info")]
     action := .redirect "menu_list" })

/-! ## Analytics handlers -/

/-- `CAST(OrderTime AS DATE)`: the calendar date component. -/
def castDate (t : OrderTime) : Nat := t.day

/-- The daily-revenue query: `GROUP BY CAST(OrderTime AS DATE)` (one group
per distinct date, keys in first-appearance order via `dedup`), each with
`SUM(TotalAmount)`, then `ORDER BY OrderDate`. -/
def dailyRevenueRows (db : DB) : List (Nat × ℚ) :=
  let keys := (db.orders.map (fun o => castDate o.orderTime)).dedup
  let grouped := keys.map (fun d =>
    (d, ((db.orders.filter (fun o => castDate o.orderTime == d)).map
          (fun o => o.totalAmount)).sum))
  grouped.mergeSort (fun a b => a.1 ≤ b.1)

/-- The `dates` sequence passed to the template. -/
def analyticsDates (db : DB) : List Nat :=
  (dailyRevenueRows db).map (fun r => r.1)

/-- The `revenues` sequence passed to the template. -/
def analyticsRevenues (db : DB) : List ℚ :=
  (dailyRevenueRows db).map (fun r => r.2)

/-- The unsorted join `FROM OrderDetails od JOIN MenuItems mi ON
od.MenuItemID = mi.MenuItemID`, projected to (item name, quantity ×
unit price). -/
def detailJoin (db : DB) : List (String × ℚ) :=
  db.orderDetails.flatMap (fun od =>
    (db.menuItems.filter (fun mi => mi.menuItemID == od.menuItemID)).map
      (fun mi => (mi.name, (od.quantity : ℚ) * od.unitPrice)))

/-- The revenue total the top-items query assigns to one item name:
`SUM(od.Quantity * od.UnitPrice)` over the join rows with that name. -/
def itemRevenue (db : DB) (n : String) : ℚ :=
  (((detailJoin db).filter (fun x => x.1 == n)).map (fun x => x.2)).sum

/-- The top-items query: `GROUP BY mi.Name` over the join, each group summed,
`ORDER BY TotalRevenue DESC`, `TOP 5`. -/
def topItemsRows (db : DB) : List (String × ℚ) :=
  let keys := ((detailJoin db).map (fun x => x.1)).dedup
  let grouped := keys.map (fun n => (n, itemRevenue db n))
  (grouped.mergeSort (fun a b => b.2 ≤ a.2)).take 5

/-! ## Concrete states used by the witnesses -/

/-- An empty database. -/
def dbEmpty : DB :=
  { users := [], categories := [], menuItems := [], orders := [],
    orderDetails := [], nextUserID := 1, nextMenuItemID := 1 }

/-- A database with one registered user. -/
def dbOneUser : DB :=
  { users := [⟨1, "alice", "alice@example.com",
               generate_password_hash "s1" "hunter2", "Customer"⟩],
    categories := [], menuItems := [], orders := [],
    orderDetails := [], nextUserID := 2, nextMenuItemID := 1 }

/-! ## C1: register then login -/

/-- Claim C1: for every username, email and password, registering (with any salt)
and then logging in with the same email and password succeeds — the session
is bound to the id the insert assigned to the new user and the handler
redirects to `index` — because `register` stores a salted hash that
`check_password_hash` accepts.  Stated for states in which the email is not
already taken, since `login` fetches the first row with that email. -/
theorem register_then_login (db : DB) (salt username email password : String)
    (hfresh : ∀ u ∈ db.users, u.email ≠ email) :
    (login (register db salt username email password).1 email password).session
        = some db.nextUserID
    ∧ (login (register db salt username email password).1 email password).action
        = Action.redirect "index" := by
  have hnone : db.users.find? (fun u => u.email == email) = none := by
    rw [List.find?_eq_none]
    intro u hu
    simpa using hfresh u hu
  constructor <;>
    simp [register, login, List.find?_append, hnone, check_password_hash,
          generate_password_hash, hashDigest]

/-- Witness for C1: on the empty database, registering alice and logging in with
her credentials yields a session bound to the freshly assigned id 1. -/
theorem register_then_login_witness :
    (∀ u ∈ dbEmpty.users, u.email ≠ "alice@example.com")
    ∧ ((login (register dbEmpty "s1" "alice" "alice@example.com" "hunter2").1
          "alice@example.com" "hunter2").session = some dbEmpty.nextUserID
       ∧ (login (register dbEmpty "s1" "alice" "alice@example.com" "hunter2").1
          "alice@example.com" "hunter2").action = Action.redirect "index") :=
  ⟨by decide,
   register_then_login dbEmpty "s1" "alice" "alice@example.com" "hunter2"
     (by decide)⟩

/-! ## C2: failed login -/

/-- Claim C2: whenever every user row with the attempted email fails the hash check
(which covers both "no such user" and "wrong password"), `login` establishes
no session, re-renders `login.html`, and flashes the one generic error
message `"Invalid email or password"`. -/
theorem login_failure (db : DB) (email password : String)
    (h : ∀ u ∈ db.users, u.email = email →
          check_password_hash u.passwordHash password = false) :
    (login db email password).session = none
    ∧ (login db email password).action = Action.render "login.html"
    ∧ (login db email password).flashes = [("Invalid email or password", "danger")] := by
  unfold login
  cases hf : db.users.find? (fun u => u.email == email) with
  | none => exact ⟨rfl, rfl, rfl⟩
  | some row =>
      have hmem : row ∈ db.users := List.mem_of_find?_eq_some hf
      have hrow := List.find?_some hf
      have hcheck : check_password_hash row.passwordHash password = false :=
        h row hmem (by simpa using hrow)
      simp [hcheck]

/-- Witness for C2: with alice registered, a login attempt with her email and a
wrong password fails with no session, and so does an attempt with an unknown
email; both flash the same message. -/
theorem login_failure_witness :
    ((∀ u ∈ dbOneUser.users, u.email = "alice@example.com" →
        check_password_hash u.passwordHash "wrong" = false)
     ∧ (login dbOneUser "alice@example.com" "wrong").session = none
     ∧ (login dbOneUser "alice@example.com" "wrong").action = Action.render "login.html"
     ∧ (login dbOneUser "alice@example.com" "wrong").flashes
         = [("Invalid email or password", "danger")])
    ∧ ((login dbOneUser "nobody@example.com" "hunter2").session = none
       ∧ (login dbOneUser "nobody@example.com" "hunter2").action
           = Action.render "login.html"
       ∧ (login dbOneUser "nobody@example.com" "hunter2").flashes
           = [("Invalid email or password", "danger")]) :=
  ⟨⟨by decide, login_failure dbOneUser "alice@example.com" "wrong" (by decide)⟩,
   login_failure dbOneUser "nobody@example.com" "hunter2" (by decide)⟩

/-! ## C9: the session loader -/

/-- When the user ids in a list are pairwise distinct, `find?` by id returns
exactly the member carrying that id. -/
theorem find?_userID_of_nodup (l : List UserRow) (uid : Nat) (r : UserRow)
    (hr : r ∈ l) (hid : r.userID = uid)
    (hnd : (l.map (fun u => u.userID)).Nodup) :
    l.find? (fun u => u.userID == uid) = some r := by
  induction l with
  | nil => cases hr
  | cons a t ih =>
      simp only [List.map_cons, List.nodup_cons] at hnd
      rcases List.mem_cons.mp hr with h | h
      · subst h
        exact List.find?_cons_of_pos _ (by simpa using hid)
      · have hane : ¬ (a.userID == uid) = true := by
          intro habs
          exact hnd.1 (by
            rw [show a.userID = uid from by simpa using habs, ← hid]
            exact List.mem_map_of_mem _ h)
        rw [List.find?_cons_of_neg (p := fun (u : UserRow) => u.userID == uid) _ hane]
        exact ih h hnd.2

/-- Claim C9: `load_user` re-fetches the `Users` row for a session-bound id: when no
row carries the id it returns `none` (the request is unauthenticated), and
when a row carries the id (ids being unique, as for a primary key) it returns
the `User` record built from that row. -/
theorem load_user_spec (db : DB) (uid : Nat) :
    ((∀ u ∈ db.users, u.userID ≠ uid) → load_user db uid = none)
    ∧ (∀ r ∈ db.users, r.userID = uid →
        (db.users.map (fun u => u.userID)).Nodup →
        load_user db uid = some ⟨r.userID, r.username, r.email, r.role⟩) := by
  constructor
  · intro h
    unfold load_user
    rw [List.find?_eq_none.mpr (fun u hu => by simpa using h u hu)]
    rfl
  · intro r hr hid hnd
    unfold load_user
    rw [find?_userID_of_nodup db.users uid r hr hid hnd]
    rfl

/-- Witness for C9: with alice stored under id 1, loading id 1 returns her record
and loading the stale id 5 returns no user. -/
theorem load_user_witness :
    ((∀ u ∈ dbOneUser.users, u.userID ≠ 5) ∧ load_user dbOneUser 5 = none)
    ∧ load_user dbOneUser 1 = some ⟨1, "alice", "alice@example.com", "Customer"⟩ :=
  ⟨⟨by decide, (load_user_spec dbOneUser 5).1 (by decide)⟩,
   (load_user_spec dbOneUser 1).2
     ⟨1, "alice", "alice@example.com",
      generate_password_hash "s1" "hunter2", "Customer"⟩
     (by decide) rfl (by decide)⟩

/-! ## C8: menu deletion -/

/-- A two-item menu over one category. -/
def dbMenu : DB :=
  { users := [], categories := [⟨1, "Mains"⟩],
    menuItems := [⟨1, "Burger", 1, 10, 1⟩, ⟨2, "Soup", 1, 5, 0⟩],
    orders := [], orderDetails := [], nextUserID := 1, nextMenuItemID := 3 }

/-- Claim C8: `menu_delete` always flashes and redirects to `menu_list` (it cannot
fail), keeps exactly the rows whose id differs from the argument (so an
existing id loses exactly its row), touches no other table, and on an id
matching no row it leaves the database entirely unchanged. -/
theorem menu_delete_spec (db : DB) (id : Nat) :
    (menu_delete db id).2.action = Action.redirect "menu_list"
    ∧ (menu_delete db id).2.flashes = [("Menu item deleted.", "info")]
    ∧ (∀ m, m ∈ (menu_delete db id).1.menuItems
        ↔ m ∈ db.menuItems ∧ m.menuItemID ≠ id)
    ∧ (menu_delete db id).1.users = db.users
    ∧ (menu_delete db id).1.categories = db.categories
    ∧ (menu_delete db id).1.orders = db.orders
    ∧ (menu_delete db id).1.orderDetails = db.orderDetails
    ∧ ((∀ m ∈ db.menuItems, m.menuItemID ≠ id) → (menu_delete db id).1 = db) := by
  refine ⟨rfl, rfl, ?_, rfl, rfl, rfl, rfl, ?_⟩
  · intro m
    simp [menu_delete, List.mem_filter]
  · intro h
    have hfilter : db.menuItems.filter (fun m => !(m.menuItemID == id))
        = db.menuItems :=
      List.filter_eq_self.mpr (fun m hm => by simpa using h m hm)
    show { db with menuItems := _ } = db
    rw [hfilter]

/-- Witness for C8: deleting the absent id 99 from the two-item menu returns the
redirect and leaves the database unchanged; deleting id 2 removes the Soup
row and keeps the Burger row. -/
theorem menu_delete_witness :
    ((∀ m ∈ dbMenu.menuItems, m.menuItemID ≠ 99)
     ∧ (menu_delete dbMenu 99).2.action = Action.redirect "menu_list"
     ∧ (menu_delete dbMenu 99).1 = dbMenu)
    ∧ (¬ (⟨2, "Soup", 1, 5, 0⟩ : MenuItemRow) ∈ (menu_delete dbMenu 2).1.menuItems
       ∧ (⟨1, "Burger", 1, 10, 1⟩ : MenuItemRow) ∈ (menu_delete dbMenu 2).1.menuItems) :=
  ⟨⟨by decide, (menu_delete_spec dbMenu 99).1,
    (menu_delete_spec dbMenu 99).2.2.2.2.2.2.2 (by decide)⟩,
   ⟨fun habs => (((menu_delete_spec dbMenu 2).2.2.1 _).mp habs).2 rfl,
    ((menu_delete_spec dbMenu 2).2.2.1 _).mpr ⟨by decide, by decide⟩⟩⟩

/-! ## C3: the menu listing -/

/-- Claim C3: on any state whose menu items all resolve to a category (the foreign
key of the data model), `menu_list` returns every menu item joined with its
category's name, nothing else, and the result is sorted by item name
ascending. -/
theorem menu_list_spec (db : DB)
    (hres : ∀ m ∈ db.menuItems, ∃ c ∈ db.categories, c.categoryID = m.categoryID) :
    (∀ m ∈ db.menuItems, ∃ c ∈ db.categories,
        c.categoryID = m.categoryID ∧ mkMenuListRow m c.name ∈ menu_list db)
    ∧ (∀ r ∈ menu_list db, ∃ m ∈ db.menuItems, ∃ c ∈ db.categories,
        c.categoryID = m.categoryID ∧ r = mkMenuListRow m c.name)
    ∧ (menu_list db).Pairwise (fun a b => a.name ≤ b.name) := by
  refine ⟨?_, ?_, ?_⟩
  · intro m hm
    obtain ⟨c, hc, hcid⟩ := hres m hm
    refine ⟨c, hc, hcid, ?_⟩
    simp only [menu_list, List.mem_mergeSort, menuJoin]
    exact List.mem_flatMap.mpr
      ⟨m, hm, List.mem_map.mpr
        ⟨c, List.mem_filter.mpr ⟨hc, by simpa using hcid⟩, rfl⟩⟩
  · intro r hr
    simp only [menu_list, List.mem_mergeSort, menuJoin] at hr
    obtain ⟨m, hm, hr2⟩ := List.mem_flatMap.mp hr
    obtain ⟨c, hcf, rfl⟩ := List.mem_map.mp hr2
    have hc := List.mem_filter.mp hcf
    exact ⟨m, hm, c, hc.1, by simpa using hc.2, rfl⟩
  · have htrans : ∀ (a b c : MenuListRow),
        decide (a.name ≤ b.name) = true → decide (b.name ≤ c.name) = true →
        decide (a.name ≤ c.name) = true := by
      intro a b c hab hbc
      simp only [decide_eq_true_eq] at hab hbc ⊢
      exact le_trans hab hbc
    have htotal : ∀ (a b : MenuListRow),
        (decide (a.name ≤ b.name) || decide (b.name ≤ a.name)) = true := by
      intro a b
      simpa using le_total a.name b.name
    have hs := List.sorted_mergeSort htrans htotal (menuJoin db)
    exact List.Pairwise.imp (fun h => by simpa using h) hs

/-- Witness for C3: on the two-item menu, every item resolves to its category and
the listing is name-sorted. -/
theorem menu_list_witness :
    (∀ m ∈ dbMenu.menuItems, ∃ c ∈ dbMenu.categories, c.categoryID = m.categoryID)
    ∧ (menu_list dbMenu).Pairwise (fun a b => a.name ≤ b.name) :=
  ⟨by decide, (menu_list_spec dbMenu (by decide)).2.2⟩

/-! ## C5: daily revenue -/

/-- Claim C5: on any state, the daily-revenue query groups the orders by calendar
date of their order time, assigns each date the sum of its orders' total
amounts, lists the dates in ascending order, and yields parallel `dates` and
`revenues` sequences whose common length is the number of distinct order
dates. -/
theorem analytics_daily_spec (db : DB) :
    (analyticsDates db).length = (analyticsRevenues db).length
    ∧ (analyticsDates db).length
        = (db.orders.map (fun o => castDate o.orderTime)).toFinset.card
    ∧ (dailyRevenueRows db).Pairwise (fun a b => a.1 ≤ b.1)
    ∧ (∀ p ∈ dailyRevenueRows db,
        p.1 ∈ db.orders.map (fun o => castDate o.orderTime)
        ∧ p.2 = ((db.orders.filter (fun o => castDate o.orderTime == p.1)).map
                  (fun o => o.totalAmount)).sum)
    ∧ (∀ o ∈ db.orders, castDate o.orderTime ∈ analyticsDates db) := by
  refine ⟨?_, ?_, ?_, ?_, ?_⟩
  · simp [analyticsDates, analyticsRevenues]
  · simp [analyticsDates, dailyRevenueRows, List.card_toFinset]
  · have htrans : ∀ (a b c : Nat × ℚ),
        decide (a.1 ≤ b.1) = true → decide (b.1 ≤ c.1) = true →
        decide (a.1 ≤ c.1) = true := by
      intro a b c hab hbc
      simp only [decide_eq_true_eq] at hab hbc ⊢
      exact le_trans hab hbc
    have htotal : ∀ (a b : Nat × ℚ),
        (decide (a.1 ≤ b.1) || decide (b.1 ≤ a.1)) = true := by
      intro a b
      simpa using le_total a.1 b.1
    have hs := List.sorted_mergeSort htrans htotal
      (((db.orders.map (fun o => castDate o.orderTime)).dedup).map (fun d =>
        (d, ((db.orders.filter (fun o => castDate o.orderTime == d)).map
              (fun o => o.totalAmount)).sum)))
    exact List.Pairwise.imp (fun h => by simpa using h) hs
  · intro p hp
    simp only [dailyRevenueRows, List.mem_mergeSort] at hp
    obtain ⟨d, hd, rfl⟩ := List.mem_map.mp hp
    exact ⟨List.mem_dedup.mp hd, rfl⟩
  · intro o ho
    have hd : castDate o.orderTime
        ∈ (db.orders.map (fun o => castDate o.orderTime)).dedup :=
      List.mem_dedup.mpr (List.mem_map_of_mem _ ho)
    have hrow : (castDate o.orderTime,
        ((db.orders.filter
            (fun q => castDate q.orderTime == castDate o.orderTime)).map
          (fun q => q.totalAmount)).sum) ∈ dailyRevenueRows db := by
      simp only [dailyRevenueRows, List.mem_mergeSort]
      exact List.mem_map_of_mem _ hd
    simpa [analyticsDates] using List.mem_map_of_mem (fun p => p.1) hrow

/-! ## C4: top-5 items -/

/-- Claim C4: on any state, the top-items query returns at most 5 rows, the rows
are in non-increasing order of revenue, and each row pairs an item name
occurring in the OrderDetails-MenuItems join with the sum of
quantity × unit price over that name's join rows. -/
theorem analytics_top5_spec (db : DB) :
    (topItemsRows db).length ≤ 5
    ∧ (topItemsRows db).Pairwise (fun a b => b.2 ≤ a.2)
    ∧ (∀ p ∈ topItemsRows db,
        p.1 ∈ (detailJoin db).map (fun x => x.1)
        ∧ p.2 = itemRevenue db p.1) := by
  refine ⟨?_, ?_, ?_⟩
  · simp only [topItemsRows]
    exact List.length_take_le 5 _
  · have htrans : ∀ (a b c : String × ℚ),
        decide (b.2 ≤ a.2) = true → decide (c.2 ≤ b.2) = true →
        decide (c.2 ≤ a.2) = true := by
      intro a b c hab hbc
      simp only [decide_eq_true_eq] at hab hbc ⊢
      exact le_trans hbc hab
    have htotal : ∀ (a b : String × ℚ),
        (decide (b.2 ≤ a.2) || decide (a.2 ≤ b.2)) = true := by
      intro a b
      simpa using le_total b.2 a.2
    have hs := List.sorted_mergeSort htrans htotal
      ((((detailJoin db).map (fun x => x.1)).dedup).map (fun n =>
        (n, itemRevenue db n)))
    have htake := List.Pairwise.sublist (List.take_sublist 5 _) hs
    exact List.Pairwise.imp (fun h => by simpa using h) htake
  · intro p hp
    simp only [topItemsRows] at hp
    have hp' := List.mem_of_mem_take hp
    simp only [List.mem_mergeSort] at hp'
    obtain ⟨n, hn, rfl⟩ := List.mem_map.mp hp'
    exact ⟨List.mem_dedup.mp hn, rfl⟩

/-! ## C6: menu creation -/

/-- Claim C6: whenever the form carries `name`, `category_id` and `price` fields
that the database converts, `menu_create` inserts exactly one row taking
those submitted values, with `active` set to 1 exactly when the `"active"`
key is present in the form (absence gives 0), redirects to `menu_list`, and
the new row appears in a subsequent `menu_list` joined to its category's
name. -/
theorem menu_create_spec (db : DB) (form : Form)
    (nm catS priceS : String) (cid : Nat) (pr : ℚ)
    (hn : formGet form "name" = some nm)
    (hc : formGet form "category_id" = some catS)
    (hp : formGet form "price" = some priceS)
    (hcid : parseNat? catS = some cid)
    (hpr : parseDec? priceS = some pr) :
    ∃ db' resp, menu_create db form = some (db', resp)
      ∧ db'.menuItems = db.menuItems ++
          [⟨db.nextMenuItemID, nm, cid, pr,
            if formHasKey form "active" then 1 else 0⟩]
      ∧ db'.categories = db.categories
      ∧ resp.action = Action.redirect "menu_list"
      ∧ (∀ c ∈ db.categories, c.categoryID = cid →
          mkMenuListRow ⟨db.nextMenuItemID, nm, cid, pr,
            if formHasKey form "active" then 1 else 0⟩ c.name ∈ menu_list db') := by
  simp only [menu_create, hn, hc, hp, hcid, hpr]
  refine ⟨_, _, rfl, rfl, rfl, rfl, ?_⟩
  intro c hcmem hceq
  simp only [menu_list, List.mem_mergeSort, menuJoin]
  exact List.mem_flatMap.mpr
    ⟨⟨db.nextMenuItemID, nm, cid, pr, if formHasKey form "active" then 1 else 0⟩,
     List.mem_append_right _ (List.mem_singleton.mpr rfl),
     List.mem_map.mpr ⟨c, List.mem_filter.mpr ⟨hcmem, by simpa using hceq⟩, rfl⟩⟩

/-- A state with one category and an empty menu. -/
def dbCat : DB :=
  { users := [], categories := [⟨1, "Mains"⟩], menuItems := [], orders := [],
    orderDetails := [], nextUserID := 1, nextMenuItemID := 1 }

/-- The submitted creation form, with the `active` checkbox present. -/
def formBurger : Form :=
  [("name", "Burger"), ("category_id", "1"), ("price", "10"), ("active", "on")]

/-- Witness for C6: creating a Burger in category 1 on the one-category state
inserts the row with the submitted values and active bit 1, and the listing
shows it joined to the category name. -/
theorem menu_create_witness :
    (formGet formBurger "name" = some "Burger"
     ∧ formGet formBurger "category_id" = some "1"
     ∧ formGet formBurger "price" = some "10"
     ∧ parseNat? "1" = some 1
     ∧ parseDec? "10" = some 10)
    ∧ (∃ db' resp, menu_create dbCat formBurger = some (db', resp)
        ∧ db'.menuItems = dbCat.menuItems ++
            [⟨dbCat.nextMenuItemID, "Burger", 1, 10,
              if formHasKey formBurger "active" then 1 else 0⟩]
        ∧ db'.categories = dbCat.categories
        ∧ resp.action = Action.redirect "menu_list"
        ∧ (∀ c ∈ dbCat.categories, c.categoryID = 1 →
            mkMenuListRow ⟨dbCat.nextMenuItemID, "Burger", 1, 10,
              if formHasKey formBurger "active" then 1 else 0⟩ c.name
              ∈ menu_list db')) :=
  ⟨⟨by decide, by decide, by decide, by decide, by decide⟩,
   menu_create_spec dbCat formBurger "Burger" "1" "10" 1 10
     (by decide) (by decide) (by decide) (by decide) (by decide)⟩

/-! ## C7: menu editing -/

/-- Claim C7: whenever the form fields convert, `menu_edit` on POST rewrites every
field of the row carrying the edited id with the submitted values — a full
replace, including the `active` bit recomputed from the form — leaves every
row with a different id untouched, produces no other rows, redirects to
`menu_list`, and a subsequent `menu_list` shows the updated row joined to its
category's name. -/
theorem menu_edit_spec (db : DB) (id : Nat) (form : Form)
    (nm catS priceS : String) (cid : Nat) (pr : ℚ)
    (hn : formGet form "name" = some nm)
    (hc : formGet form "category_id" = some catS)
    (hp : formGet form "price" = some priceS)
    (hcid : parseNat? catS = some cid)
    (hpr : parseDec? priceS = some pr) :
    ∃ db' resp, menu_edit db id form = some (db', resp)
      ∧ resp.action = Action.redirect "menu_list"
      ∧ db'.categories = db.categories
      ∧ db'.menuItems.length = db.menuItems.length
      ∧ (∀ m ∈ db.menuItems, m.menuItemID ≠ id → m ∈ db'.menuItems)
      ∧ (∀ m ∈ db.menuItems, m.menuItemID = id →
          (⟨id, nm, cid, pr,
            if formTruthy (formGet form "active") then 1 else 0⟩
              : MenuItemRow) ∈ db'.menuItems)
      ∧ (∀ m' ∈ db'.menuItems, m' ∈ db.menuItems
          ∨ m' = ⟨id, nm, cid, pr,
              if formTruthy (formGet form "active") then 1 else 0⟩)
      ∧ (∀ c ∈ db.categories, c.categoryID = cid →
          (∃ m ∈ db.menuItems, m.menuItemID = id) →
          mkMenuListRow ⟨id, nm, cid, pr,
            if formTruthy (formGet form "active") then 1 else 0⟩ c.name
            ∈ menu_list db') := by
  simp only [menu_edit, hn, hc, hp, hcid, hpr]
  refine ⟨_, _, rfl, rfl, rfl, by simp, ?_, ?_, ?_, ?_⟩
  · intro m hm hne
    refine List.mem_map.mpr ⟨m, hm, ?_⟩
    have hne' : (m.menuItemID == id) = false := by simpa using hne
    simp [hne']
  · intro m hm heq
    refine List.mem_map.mpr ⟨m, hm, ?_⟩
    have heq' : (m.menuItemID == id) = true := by simpa using heq
    simp [heq', heq]
  · intro m' hm'
    obtain ⟨m, hm, rfl⟩ := List.mem_map.mp hm'
    by_cases hmi : (m.menuItemID == id) = true
    · right
      have : m.menuItemID = id := by simpa using hmi
      simp [hmi, this]
    · left
      have hmi' : (m.menuItemID == id) = false := by simpa using hmi
      simpa [hmi'] using hm
  · rintro c hcmem hceq ⟨m, hm, hmid⟩
    simp only [menu_list, List.mem_mergeSort, menuJoin]
    refine List.mem_flatMap.mpr ⟨_, List.mem_map.mpr ⟨m, hm, rfl⟩, ?_⟩
    have heq' : (m.menuItemID == id) = true := by simpa using hmid
    refine List.mem_map.mpr
      ⟨c, List.mem_filter.mpr ⟨hcmem, ?_⟩, ?_⟩
    · simp [heq', hceq]
    · simp [heq', hmid, mkMenuListRow]

/-- The submitted edit form raising the Burger price, checkbox present. -/
def formBurgerEdit : Form :=
  [("name", "Burger"), ("category_id", "1"), ("price", "11"), ("active", "on")]

/-- Witness for C7: editing item 1 of the two-item menu replaces all four fields
of that row with the submitted values, leaves the Soup row unchanged, and the
listing shows the updated row joined to the category name. -/
theorem menu_edit_witness :
    (formGet formBurgerEdit "price" = some "11" ∧ parseDec? "11" = some 11)
    ∧ (∃ db' resp, menu_edit dbMenu 1 formBurgerEdit = some (db', resp)
        ∧ resp.action = Action.redirect "menu_list"
        ∧ db'.categories = dbMenu.categories
        ∧ db'.menuItems.length = dbMenu.menuItems.length
        ∧ (∀ m ∈ dbMenu.menuItems, m.menuItemID ≠ 1 → m ∈ db'.menuItems)
        ∧ (∀ m ∈ dbMenu.menuItems, m.menuItemID = 1 →
            (⟨1, "Burger", 1, 11,
              if formTruthy (formGet formBurgerEdit "active") then 1 else 0⟩
                : MenuItemRow) ∈ db'.menuItems)
        ∧ (∀ m' ∈ db'.menuItems, m' ∈ dbMenu.menuItems
            ∨ m' = ⟨1, "Burger", 1, 11,
                if formTruthy (formGet formBurgerEdit "active") then 1 else 0⟩)
        ∧ (∀ c ∈ dbMenu.categories, c.categoryID = 1 →
            (∃ m ∈ dbMenu.menuItems, m.menuItemID = 1) →
            mkMenuListRow ⟨1, "Burger", 1, 11,
              if formTruthy (formGet formBurgerEdit "active") then 1 else 0⟩
              c.name ∈ menu_list db')) :=
  ⟨⟨by decide, by decide⟩,
   menu_edit_spec dbMenu 1 formBurgerEdit "Burger" "1" "11" 1 11
     (by decide) (by decide) (by decide) (by decide) (by decide)⟩

/-! ## C10: the two readings of the `active` field -/

/-- A form whose `active` field is present but holds the empty string. -/
def formEmptyActive : Form :=
  [("name", "Soup"), ("category_id", "1"), ("price", "5"), ("active", "")]

/-- Claim C10: the `active` key is present in `formEmptyActive` (so `menu_create`
stores 1) while its value is not truthy (so `menu_edit` stores 0): on the
two-item menu, creating from this form appends a row with active bit 1
(actives become `[1, 0, 1]`), while editing item 1 from the same form stores
active bit 0 (actives become `[0, 0]`). -/
theorem active_field_divergence :
    formHasKey formEmptyActive "active" = true
    ∧ formTruthy (formGet formEmptyActive "active") = false
    ∧ (menu_create dbMenu formEmptyActive).map
        (fun x => x.1.menuItems.map (fun m => m.active)) = some [1, 0, 1]
    ∧ (menu_edit dbMenu 1 formEmptyActive).map
        (fun x => x.1.menuItems.map (fun m => m.active)) = some [0, 0] := by
  refine ⟨by decide, by decide, by decide, by decide⟩

end RestaurantApp
